import Mathlib

/-!
Shallow embedding of the dataflow-resolution / graph-unrolling engine of
`src/toil/cwl/cwltoil.py` (classes `Conditional`, `ResolveSource`,
`DefaultWithSource`, `CWLScatter`, `CWLWorkflow` and the helper
`filter_skip_null`), together with theorems settling the frozen claims.

Python values flowing through the engine are embedded as the inductive
`Value`; Python dictionaries as ordered association lists (`Dict`); Python
exceptions as `Except Err`; the external cwltool expression evaluator
(`cwltool.expression.do_eval`) as an explicit function parameter.
-/

namespace CwlToil

/-- Embedding of the Python values that flow through the engine:
`None`, booleans, integers, strings, lists, dicts, and the `SkipNull`
sentinel class of cwltoil (an internal marker for outputs of a skipped
conditional step). -/
inductive Value where
  | null : Value
  | bool : Bool → Value
  | int : Int → Value
  | str : String → Value
  | list : List Value → Value
  | dict : List (String × Value) → Value
  | skipNull : Value

/-- Python truthiness (`bool(v)`) on embedded values.  A `SkipNull`
instance is a plain object with no `__bool__`, hence truthy. -/
def Value.truthy : Value → Bool
  | .null => false
  | .bool b => b
  | .int n => n != 0
  | .str s => s != ""
  | .list l => !l.isEmpty
  | .dict d => !d.isEmpty
  | .skipNull => true

/-- A Python dict, embedded as an ordered association list.  Python dict
keys are unique; the embedding preserves that for every dict the code
builds. -/
abbrev Dict := List (String × Value)

/-- `d[k]` / `d.get(k)` as an `Option`: the value at the first matching
key. -/
def Dict.get : Dict → String → Option Value
  | [], _ => none
  | (k', v) :: rest, k => if k' = k then some v else Dict.get rest k

/-- `d[k] = v`: replace the value at an existing key in place (keeping its
position, as Python dicts do), else append the new binding. -/
def Dict.set : Dict → String → Value → Dict
  | [], k, v => [(k, v)]
  | (k', v') :: rest, k, v =>
      if k' = k then (k, v) :: rest else (k', v') :: Dict.set rest k v

/-- `d.setdefault(k, v)`: insert `(k, v)` only when `k` is absent. -/
def Dict.setdefault (d : Dict) (k : String) (v : Value) : Dict :=
  match d.get k with
  | some _ => d
  | none => d ++ [(k, v)]

/-- Split a character list at every occurrence of a separator character
(the result always has at least one group, like Python's `str.split`). -/
def splitOnChar (sep : Char) : List Char → List (List Char)
  | [] => [[]]
  | c :: rest =>
      let r := splitOnChar sep rest
      if c = sep then [] :: r
      else
        match r with
        | [] => [[c]]
        | g :: gs => (c :: g) :: gs

/-- `cwltool.process.shortname`: the last `/`-component of the fragment
after the last `#` of a parameter identifier (structural recursion over
the character list, so that it evaluates definitionally). -/
def shortname (s : String) : String :=
  let frag := (splitOnChar '#' s.toList).getLastD s.toList
  ⟨(splitOnChar '/' frag).getLastD frag⟩

/-- Exceptions raised by the engine: `schema_salad.validate.ValidationException`,
`cwltool.errors.WorkflowException`, and Python's built-in `KeyError` (from
indexing a dict at a missing key). -/
inductive Err where
  | validationException : String → Err
  | workflowException : String → Err
  | keyError : String → Err

mutual

/-- `_filter_skip_null(name, value, err_flag)` (cwltoil.py:127-147): the
returned value together with the final state of the by-reference
`err_flag` (set whenever a `SkipNull` was replaced by `None`). -/
def filterSkipNullVal : Value → Value × Bool
  | .skipNull => (.null, true)
  | .list l =>
      let r := filterSkipNullList l
      (.list r.1, r.2)
  | .dict d =>
      let r := filterSkipNullDict d
      (.dict r.1, r.2)
  | v => (v, false)

/-- The list comprehension branch of `_filter_skip_null`. -/
def filterSkipNullList : List Value → List Value × Bool
  | [] => ([], false)
  | v :: rest =>
      let r := filterSkipNullVal v
      let rs := filterSkipNullList rest
      (r.1 :: rs.1, r.2 || rs.2)

/-- The dict comprehension branch of `_filter_skip_null`. -/
def filterSkipNullDict : List (String × Value) → List (String × Value) × Bool
  | [] => ([], false)
  | (k, v) :: rest =>
      let r := filterSkipNullVal v
      let rs := filterSkipNullDict rest
      ((k, r.1) :: rs.1, r.2 || rs.2)

end

/-- `filter_skip_null(name, value)` (cwltoil.py:107-124): the filtered
value, and — in place of the `cwllogger.warning` emitted when the error
flag was set — the diagnostic message as an `Option String`. -/
def filter_skip_null (name : String) (value : Value) : Value × Option String :=
  let r := filterSkipNullVal value
  (r.1,
   if r.2 then
     some ("In " ++ name ++ ", SkipNull result found and cast to None. \n" ++
       "You had a conditional step that did not run, " ++
       "but you did not use pickValue to handle the skipped input.")
   else none)

mutual

/-- Specification predicate (not from the source): does a value contain a
`SkipNull` marker anywhere inside it? -/
def Value.containsSkip : Value → Bool
  | .skipNull => true
  | .list l => containsSkipList l
  | .dict d => containsSkipDict d
  | _ => false

/-- `Value.containsSkip` over a list of values. -/
def containsSkipList : List Value → Bool
  | [] => false
  | v :: rest => v.containsSkip || containsSkipList rest

/-- `Value.containsSkip` over the entries of a dict. -/
def containsSkipDict : List (String × Value) → Bool
  | [] => false
  | (_, v) :: rest => v.containsSkip || containsSkipDict rest

end

mutual

/-- Specification function (from the spec's words, not the source, for
comparison with `_filter_skip_null`): "recursively substituted with
ordinary null" — every `SkipNull` marker anywhere inside the value is
replaced by `null`, lists and dicts are traversed recursively, and every
other value is left unchanged. -/
def Value.replaceSkip : Value → Value
  | .skipNull => .null
  | .list l => .list (replaceSkipList l)
  | .dict d => .dict (replaceSkipDict d)
  | v => v

/-- `Value.replaceSkip` over a list of values. -/
def replaceSkipList : List Value → List Value
  | [] => []
  | v :: rest => v.replaceSkip :: replaceSkipList rest

/-- `Value.replaceSkip` over the entries of a dict. -/
def replaceSkipDict : List (String × Value) → List (String × Value)
  | [] => []
  | (k, v) :: rest => (k, v.replaceSkip) :: replaceSkipDict rest

end

/-- An entry of a step's `out` list: either a mapping with an `"id"` key
or a plain identifier string (cwltoil.py:204-208 and 1004-1008 accept
both shapes). -/
inductive OutEntry where
  | mapping : String → OutEntry
  | str : String → OutEntry

/-- The local helper `sn` of `Conditional.skipped_outputs` (and of
`CWLGather.run`): the short name of an `out` entry. -/
def OutEntry.sn : OutEntry → String
  | .mapping id => shortname id
  | .str s => shortname s

/-- The external expression evaluator `cwltool.expression.do_eval`,
abstracted: an expression string and the variable bindings produce a
value.  (The requirements, outdir, tmpdir and resources arguments are
fixed at every call site embedded here and are dropped.) -/
abbrev Evaluator := String → Dict → Value

/-- `class Conditional` (cwltoil.py:150-213): holds the optional `when`
expression and the step's declared outputs.  The `requirements` field
only parameterizes the external evaluator and is dropped. -/
structure Conditional where
  expression : Option String := none
  outputs : List OutEntry := []

/-- `{shortname(k): v for k, v in iteritems(job)}`: re-key a dict by short
names. -/
def shortnameDict (d : Dict) : Dict :=
  d.map fun p => (shortname p.1, p.2)

/-- `Conditional.is_false(job)` (cwltoil.py:170-193).  `job` is the step's
input dict, already passed through `resolve_indirect` by every caller
(`CWLJob.run`, `CWLWorkflow.run`); `resolve_indirect` over a dict of plain
(non-promise, non-valueFrom) values is the identity, so it is elided here
and `job` holds plain values. -/
def Conditional.is_false (c : Conditional) (ev : Evaluator) (job : Dict) :
    Except Err Bool :=
  match c.expression with
  | none => .ok false
  | some expr =>
      match ev expr (shortnameDict job) with
      | .bool b => .ok (!b)
      | _ => .error (.workflowException
          ("'" ++ expr ++ "' evaluated to a non-boolean value"))

/-- `Conditional.skipped_outputs()` (cwltoil.py:195-213): every declared
output short name mapped to a `SkipNull`. -/
def Conditional.skipped_outputs (c : Conditional) : Dict :=
  c.outputs.map fun o => (o.sn, Value.skipNull)

/-- The conditional short-circuit shared by `CWLJob.run` (cwltoil.py:769-770)
and `CWLWorkflow.run` (cwltoil.py:1063-1064): if the gate's expression is
false the step's body is never entered and the skipped outputs are
returned in its place; `body` stands for the rest of the `run` method
(the materialization and execution of the wrapped tool or workflow). -/
def runWithConditional (c : Conditional) (ev : Evaluator) (cwljob : Dict)
    (body : Dict → Except Err Dict) : Except Err Dict :=
  match c.is_false ev cwljob with
  | .error e => .error e
  | .ok true => .ok c.skipped_outputs
  | .ok false => body cwljob

/-- The `linkMerge` / `pickValue` / source fields of a CWL input (or
workflow output) object, as consumed by `ResolveSource`:
`sources` is `aslist(input[source_key])`, `linkMerge` is
`input.get("linkMerge")` and `pickValue` is `input.get("pickValue")`
(`none` = key absent). -/
structure InputSpec where
  sources : List String
  linkMerge : Option String := none
  pickValue : Option String := none

/-- Python truthiness of `input.get("linkMerge")`: `None` and the empty
string are falsy. -/
def truthyOptStr : Option String → Bool
  | none => false
  | some s => s != ""

/-- `ResolveSource.promise_tuples` is either a list of
`(shortname, output-dict)` pairs or — single source, no `linkMerge` — one
bare pair (cwltoil.py:234-245). -/
inductive PromiseTuples where
  | many : List (String × Dict) → PromiseTuples
  | one : String × Dict → PromiseTuples

/-- `class ResolveSource` (cwltoil.py:216-329) after construction:
the port name (for error messages), the input's `linkMerge`/`pickValue`
fields, and the captured promise tuples. -/
structure ResolveSource where
  name : String
  linkMerge : Option String
  pickValue : Option String
  promise_tuples : PromiseTuples

/-- `ResolveSource.__init__(name, input, source_key, promises)`
(cwltoil.py:220-245).  `env s` stands for the resolved value
`promises[s].rv()` of source `s` (an output dict); the loop in
`CWLWorkflow.run` only constructs a `ResolveSource` once every source is
present in `promises`, so `env` is total here.  With a single source and
no (truthy) `linkMerge`, `promise_tuples` is one bare tuple, not a
one-element list. -/
def ResolveSource.make (name : String) (input : InputSpec)
    (env : String → Dict) : ResolveSource :=
  if truthyOptStr input.linkMerge || input.sources.length > 1 then
    { name := name, linkMerge := input.linkMerge, pickValue := input.pickValue,
      promise_tuples := .many (input.sources.map fun s => (shortname s, env s)) }
  else
    -- `source_names[0]` (IndexError on an empty source list is out of the
    -- embedded domain; `headD` supplies a dummy there)
    let s := input.sources.headD ""
    { name := name, linkMerge := input.linkMerge, pickValue := input.pickValue,
      promise_tuples := .one (shortname s, env s) }

/-- The loop body of the `merge_flattened` branch (cwltoil.py:276-281):
`result.extend(v)` for a sequence, `result.append(v)` otherwise. -/
def flattenValues : List Value → List Value
  | [] => []
  | .list l :: rest => l ++ flattenValues rest
  | v :: rest => v :: flattenValues rest

/-- `ResolveSource.link_merge(values)` (cwltoil.py:263-286). -/
def ResolveSource.link_merge (rs : ResolveSource) (values : List Value) :
    Except Err Value :=
  let link_merge_type := rs.linkMerge.getD "merge_nested"
  if link_merge_type = "merge_nested" then
    .ok (.list values)
  else if link_merge_type = "merge_flattened" then
    .ok (.list (flattenValues values))
  else
    .error (.validationException
      ("Unsupported linkMerge '" ++ link_merge_type ++ "' on " ++ rs.name ++ "."))

/-- `isinstance(v, SkipNull) or v is None`, the filter dropped by
`pick_value` (cwltoil.py:305). -/
def isSkipOrNull : Value → Bool
  | .skipNull => true
  | .null => true
  | _ => false

/-- `ResolveSource.pick_value(values)` (cwltoil.py:288-329).  The
`cwllogger.warning` on a non-list input does not affect the returned
value and is elided. -/
def ResolveSource.pick_value (rs : ResolveSource) (values : Value) :
    Except Err Value :=
  match rs.pickValue with
  | none => .ok values
  | some pick_value_type =>
      match values with
      | .list vs =>
          let result := vs.filter fun v => !isSkipOrNull v
          if pick_value_type = "first_non_null" then
            match result with
            | [] => .error (.workflowException
                (rs.name ++ ": first_non_null operator found no non-null values"))
            | x :: _ => .ok x
          else if pick_value_type = "only_non_null" then
            match result with
            | [] => .error (.workflowException
                (rs.name ++ ": only_non_null operator found no non-null values"))
            | [x] => .ok x
            | _ => .error (.workflowException
                (rs.name ++ ": only_non_null operator found more than one non-null values"))
          else if pick_value_type = "all_non_null" then
            .ok (.list result)
          else
            .error (.workflowException
              ("Unsupported pickValue '" ++ pick_value_type ++ "' on " ++ rs.name))
      | _ => .ok values

/-- `[v[1][v[0]] for v in self.promise_tuples]` (cwltoil.py:254): index
each captured output dict at the short name; a missing key is Python's
`KeyError`. -/
def lookupTuples : List (String × Dict) → Except Err (List Value)
  | [] => .ok []
  | (k, d) :: rest =>
      match Dict.get d k with
      | none => .error (.keyError k)
      | some v =>
          match lookupTuples rest with
          | .error e => .error e
          | .ok vs => .ok (v :: vs)

/-- `ResolveSource.resolve()` (cwltoil.py:247-261): link-merge (list case)
or direct lookup (single-tuple case, via `.get`, so a missing key yields
`None`), then `pick_value`, then `filter_skip_null` (whose diagnostic is
a log line and does not affect the returned value). -/
def ResolveSource.resolve (rs : ResolveSource) : Except Err Value :=
  let base : Except Err Value :=
    match rs.promise_tuples with
    | .many ts =>
        match lookupTuples ts with
        | .error e => .error e
        | .ok vals => rs.link_merge vals
    | .one (k, d) => .ok ((Dict.get d k).getD .null)
  match base with
  | .error e => .error e
  | .ok r =>
      match rs.pick_value r with
      | .error e => .error e
      | .ok r2 => .ok (filter_skip_null rs.name r2).1

/-- `class DefaultWithSource` (cwltoil.py:371-395): a default value and an
optional source (`jobobj.get(key)` may be `None` when the input had a
`default` but no `source`). -/
structure DefaultWithSource where
  default : Value
  source : Option ResolveSource

/-- `DefaultWithSource.resolve()` (cwltoil.py:385-395): `if self.source:`
is Python truthiness of the source object (truthy whenever present), and
`if result:` is Python truthiness of the resolved value — the default is
returned for every falsy resolved value, not only for `None`. -/
def DefaultWithSource.resolve (d : DefaultWithSource) : Except Err Value :=
  match d.source with
  | some src =>
      match src.resolve with
      | .error e => .error e
      | .ok result => if result.truthy then .ok result else .ok d.default
  | none => .ok d.default

/-- `step.tool["scatter"]`: either a single identifier string or a list of
identifiers (cwltoil.py:915-918). -/
inductive ScatterField where
  | str : String → ScatterField
  | list : List String → ScatterField

/-- The normalization at cwltoil.py:915-918: a bare string becomes a
one-element list. -/
def ScatterField.norm : ScatterField → List String
  | .str s => [s]
  | .list l => l

/-- One entry of `step.tool["inputs"]` as consumed by `CWLScatter.run`:
its `id` and optional `valueFrom` expression. -/
structure ScatterInputDecl where
  id : String
  valueFrom : Option String := none

/-- The parts of a scatter step's tool object that `CWLScatter.run`
reads: the `scatter` field, the optional `scatterMethod`, and the input
declarations (for `valueFrom`). -/
structure ScatterStep where
  scatter : ScatterField
  scatterMethod : Option String := none
  inputs : List ScatterInputDecl := []

/-- The external evaluator at `valueFrom` call sites, which additionally
receives the substituted value as `context` (cwltoil.py:933-937):
expression, short-named bindings, context value. -/
abbrev CtxEvaluator := String → Dict → Value → Value

/-- The scatter sub-job structure: a created sub-job is identified by the
input object it was materialized with (`makeJob`'s `jobobj`); the
`outputs` collections of `CWLScatter.run` mirror this shape, nested lists
for `nested_crossproduct`. -/
inductive Nested where
  | job : Dict → Nested
  | seq : List Nested → Nested

/-- `postScatterEval(io)` (cwltoil.py:928-940): evaluate every
`valueFrom` port of the sub-input against the \x7bshort name: value\x7d
bindings taken *before* the `setdefault` loop, with the substituted value
as context; ports without `valueFrom` pass through. -/
def postScatterEval (ev : CtxEvaluator) (valueFrom : List (String × String))
    (io : Dict) : Dict :=
  let shortio := shortnameDict io
  let io2 := valueFrom.foldl (fun d p => d.setdefault p.1 .null) io
  io2.map fun p =>
    match valueFrom.lookup p.1 with
    | some expr => (p.1, ev expr shortio p.2)
    | none => p

/-- `len(joborder[scatter_key])` / iteration over it: the list at a key.
A missing key or non-list value would be a Python `KeyError`/`TypeError`;
those are out of the embedded domain and yield `[]` here (every theorem
below supplies the key as a list). -/
def Dict.getList (d : Dict) (k : String) : List Value :=
  match d.get k with
  | some (.list l) => l
  | _ => []

/-- `CWLScatter.flat_crossproduct_scatter(joborder, scatter_keys, outputs,
postScatterEval)` (cwltoil.py:874-891), uncurried over the current key's
array: `rest` is `scatter_keys[1:]`, `key` is `shortname(scatter_keys[0])`
and `arr` is `joborder[key]`.  Each leaf appends one sub-job built from
the fully substituted, `postScatterEval`-ed input. -/
def flatCPList (pse : Dict → Dict) : List String → Dict → String →
    List Value → List Nested
  | _, _, _, [] => []
  | rest, joborder, key, el :: els =>
      let jo := Dict.set joborder key el
      (match rest with
       | [] => [Nested.job (pse jo)]
       | k2 :: rest2 =>
           flatCPList pse rest2 jo (shortname k2) (jo.getList (shortname k2)))
      ++ flatCPList pse rest joborder key els
  termination_by rest _ _ arr => (rest.length, arr.length)

/-- Entry point of `flat_crossproduct_scatter` as called from
`CWLScatter.run` with `outputs = []`. -/
def flat_crossproduct_scatter (pse : Dict → Dict) (joborder : Dict)
    (scatter_keys : List String) : List Nested :=
  match scatter_keys with
  | [] => []
  | k :: rest =>
      flatCPList pse rest joborder (shortname k)
        (joborder.getList (shortname k))

/-- `CWLScatter.nested_crossproduct_scatter(joborder, scatter_keys,
postScatterEval)` (cwltoil.py:893-910), uncurried like `flatCPList`:
one output entry per element of the current key's array — a sub-job at
the innermost level, a nested list otherwise. -/
def nestedCPList (pse : Dict → Dict) : List String → Dict → String →
    List Value → List Nested
  | _, _, _, [] => []
  | rest, joborder, key, el :: els =>
      let jo := Dict.set joborder key el
      (match rest with
       | [] => Nested.job (pse jo)
       | k2 :: rest2 =>
           Nested.seq
             (nestedCPList pse rest2 jo (shortname k2)
               (jo.getList (shortname k2))))
      :: nestedCPList pse rest joborder key els
  termination_by rest _ _ arr => (rest.length, arr.length)

/-- Entry point of `nested_crossproduct_scatter`. -/
def nested_crossproduct_scatter (pse : Dict → Dict) (joborder : Dict)
    (scatter_keys : List String) : List Nested :=
  match scatter_keys with
  | [] => []
  | k :: rest =>
      nestedCPList pse rest joborder (shortname k)
        (joborder.getList (shortname k))

/-- `cwljob[sc][i]` in the dotproduct branch (cwltoil.py:946): index the
scattered array.  An out-of-range index is Python's `IndexError`, out of
the embedded domain (`null` here); the dotproduct theorem assumes equal
lengths, under which every index taken is in range. -/
def Dict.getIndex (d : Dict) (k : String) (i : Nat) : Value :=
  ((d.getList k).get? i).getD .null

/-- The `dotproduct` branch of `CWLScatter.run` (cwltoil.py:942-952): one
sub-job per index of the *first* scattered array, each scattered short
name substituted with its i-th element, then `postScatterEval`. -/
def dotproductScatter (pse : Dict → Dict) (cwljob : Dict)
    (scatter : List String) : List Nested :=
  (List.range (cwljob.getList (shortname (scatter.headD ""))).length).map
    fun i =>
      let copyjob := scatter.foldl
        (fun jo x => Dict.set jo (shortname x) (cwljob.getIndex (shortname x) i))
        cwljob
      Nested.job (pse copyjob)

/-- `CWLScatter.run` (cwltoil.py:912-968).  `cwljob` is the step's input
dict after `resolve_indirect`; the returned value mirrors the `outputs`
collection (one entry per created sub-job, nested for
`nested_crossproduct`).  `scatterMethod` is forced to `"dotproduct"`
whenever exactly one port is scattered. -/
def scatterRun (ev : CtxEvaluator) (step : ScatterStep) (cwljob : Dict) :
    Except Err (List Nested) :=
  let scatter := step.scatter.norm
  let scatterMethod :=
    if scatter.length = 1 then some "dotproduct" else step.scatterMethod
  let valueFrom := step.inputs.filterMap fun i =>
    i.valueFrom.map fun e => (shortname i.id, e)
  let pse := postScatterEval ev valueFrom
  if scatterMethod = some "dotproduct" then
    .ok (dotproductScatter pse cwljob scatter)
  else if scatterMethod = some "nested_crossproduct" then
    .ok (nested_crossproduct_scatter pse cwljob scatter)
  else if scatterMethod = some "flat_crossproduct" then
    .ok (flat_crossproduct_scatter pse cwljob scatter)
  else
    if truthyOptStr scatterMethod then
      .error (.validationException
        ("Unsupported complex scatter type '" ++ scatterMethod.getD "" ++ "'"))
    else
      .error (.validationException
        "Must provide scatterMethod to scatter over multiple inputs.")

/-- Specification helper (not from the source): the leaves of a nested
sub-job collection, in left-to-right order. -/
def leavesOf : List Nested → List Dict
  | [] => []
  | .job jo :: rest => jo :: leavesOf rest
  | .seq l :: rest => leavesOf l ++ leavesOf rest
  termination_by l => sizeOf l

/-- One entry of `step.tool["inputs"]` as read by the unrolling loop of
`CWLWorkflow.run`: `source` is `aslist(inp["source"])` when the `"source"`
key is present. -/
structure LoopStepInput where
  id : String
  source : Option (List String) := none

/-- A workflow step as read by the unrolling loop: its `id`, its inputs,
and the ids of its `outputs` (registered as promises once the step is
scheduled, cwltoil.py:1158-1159). -/
structure LoopStep where
  id : String
  inputs : List LoopStepInput
  outIds : List String

/-- A declared workflow output as read by the fulfilment check
(cwltoil.py:1167-1170): its optional `source` (read as a single key
there). -/
structure LoopWFOutput where
  id : String
  outputSource : Option String := none

/-- The workflow as read by the unrolling loop: input parameter ids
(pre-registered as promises at cwltoil.py:1076-1077), the ordered step
list, and the declared outputs. -/
structure LoopWorkflow where
  inputs : List String
  steps : List LoopStep
  outputs : List LoopWFOutput

/-- The mutable state of the unrolling loop: the key set of the
`promises` dict and the key set of the `jobs` dict (only membership is
consulted by the loop's control flow). -/
structure UnrollState where
  promises : List String
  jobs : List String

/-- `all sources of all inputs of this step are in promises`
(cwltoil.py:1090-1095 and, reused verbatim, 1161-1164). -/
def stepSourcesFulfilled (st : UnrollState) (step : LoopStep) : Bool :=
  step.inputs.all fun inp =>
    match inp.source with
    | none => true
    | some ss => ss.all fun s => st.promises.contains s

/-- The per-step body of one pass of the unrolling loop
(cwltoil.py:1088-1164): schedule the step if it is unscheduled and all
its sources are present (registering its output ids as promises), then —
against the updated promise table — clear `all_outputs_fulfilled` if any
of this step's sources is still missing. -/
def processStep (acc : UnrollState × Bool) (step : LoopStep) :
    UnrollState × Bool :=
  let st := acc.1
  let st' :=
    if st.jobs.contains step.id then st
    else if stepSourcesFulfilled st step then
      { promises := st.promises ++ step.outIds,
        jobs := st.jobs ++ [step.id] }
    else st
  (st', acc.2 && stepSourcesFulfilled st' step)

/-- One iteration of the `while not all_outputs_fulfilled` loop
(cwltoil.py:1080-1170): a full pass over the step list followed by the
workflow-output fulfilment check.  Returns the updated state and the
final `all_outputs_fulfilled` flag. -/
def onePass (wf : LoopWorkflow) (st : UnrollState) : UnrollState × Bool :=
  let r := wf.steps.foldl processStep (st, true)
  (r.1,
   r.2 && wf.outputs.all fun o =>
     match o.outputSource with
     | none => true
     | some s => r.1.promises.contains s)

/-- The initial state: workflow inputs pre-registered as promises
(cwltoil.py:1076-1077), no step scheduled. -/
def initState (wf : LoopWorkflow) : UnrollState :=
  { promises := wf.inputs, jobs := [] }

/-- The `while not all_outputs_fulfilled` loop itself, with explicit
fuel: `some st` when the loop exits (all outputs fulfilled) within the
given number of passes, `none` when the fuel runs out with the loop still
running.  The source loop has no pass bound and no deadlock detection, so
a state on which `onePass` makes no progress and stays unfulfilled makes
the Python loop run forever. -/
def unrollLoop (wf : LoopWorkflow) : Nat → UnrollState → Option UnrollState
  | 0, _ => none
  | n + 1, st =>
      let r := onePass wf st
      if r.2 then some r.1 else unrollLoop wf n r.1

/-- The concrete cyclic two-step workflow of the claim: step A's input
sources step B's output and vice versa. -/
def cyclicWF : LoopWorkflow :=
  { inputs := [],
    steps :=
      [ { id := "A", inputs := [{ id := "A/in", source := some ["B/out"] }],
          outIds := ["A/out"] },
        { id := "B", inputs := [{ id := "B/in", source := some ["A/out"] }],
          outIds := ["B/out"] } ],
    outputs := [{ id := "wfout", outputSource := some "A/out" }] }

/-- A `ResolveSource` carrying only the fields that `pick_value` and
`link_merge` consult (`name` and the two policies); the captured promise
tuples are irrelevant to those two methods. -/
def mkPolicies (name : String) (lm pv : Option String) : ResolveSource :=
  { name := name, linkMerge := lm, pickValue := pv,
    promise_tuples := .one ("", []) }

/-- C2: `pick_value` first filters `SkipNull` markers and nulls into a
surviving list; `first_non_null` returns the first survivor and errors
when none survive; `only_non_null` returns the single survivor and errors
on zero or several survivors; `all_non_null` returns the whole surviving
list; absent policy returns the merged value unchanged.  Concretely,
`first_non_null` over `[null, Skipped, 5, 6]` yields `5`, over
`[null, Skipped]` raises, and `only_non_null` over `[null, 7, 8]`
raises. -/
theorem pick_value_spec (name : String) (vs : List Value) :
    (∀ v, (mkPolicies name none none).pick_value v = .ok v) ∧
    ((mkPolicies name none (some "first_non_null")).pick_value (.list vs) =
      match vs.filter (fun v => !isSkipOrNull v) with
      | [] => .error (.workflowException
          (name ++ ": first_non_null operator found no non-null values"))
      | x :: _ => .ok x) ∧
    ((mkPolicies name none (some "only_non_null")).pick_value (.list vs) =
      match vs.filter (fun v => !isSkipOrNull v) with
      | [] => .error (.workflowException
          (name ++ ": only_non_null operator found no non-null values"))
      | [x] => .ok x
      | _ => .error (.workflowException
          (name ++ ": only_non_null operator found more than one non-null values"))) ∧
    ((mkPolicies name none (some "all_non_null")).pick_value (.list vs) =
      .ok (.list (vs.filter (fun v => !isSkipOrNull v)))) ∧
    ((mkPolicies "p" none (some "first_non_null")).pick_value
        (.list [.null, .skipNull, .int 5, .int 6]) = .ok (.int 5)) ∧
    ((mkPolicies "p" none (some "first_non_null")).pick_value
        (.list [.null, .skipNull]) =
      .error (.workflowException
        "p: first_non_null operator found no non-null values")) ∧
    ((mkPolicies "p" none (some "only_non_null")).pick_value
        (.list [.null, .int 7, .int 8]) =
      .error (.workflowException
        "p: only_non_null operator found more than one non-null values")) := by
  refine ⟨fun v => rfl, ?_, ?_, rfl, rfl, rfl, rfl⟩
  · show (match vs.filter (fun v => !isSkipOrNull v) with
      | [] => Except.error (Err.workflowException
          (name ++ ": first_non_null operator found no non-null values"))
      | x :: _ => Except.ok x) = _
    cases vs.filter (fun v => !isSkipOrNull v) <;> rfl
  · show (match vs.filter (fun v => !isSkipOrNull v) with
      | [] => Except.error (Err.workflowException
          (name ++ ": only_non_null operator found no non-null values"))
      | [x] => Except.ok x
      | _ => Except.error (Err.workflowException
          (name ++ ": only_non_null operator found more than one non-null values"))) = _
    rcases vs.filter (fun v => !isSkipOrNull v) with _ | ⟨x, _ | _⟩ <;> rfl

/-- C3: `link_merge` under `merge_nested` (also the default when no
policy is given) returns the ordered list with one element per source;
under `merge_flattened` it splices array-valued sources element-wise and
appends scalar sources; any other policy string raises a validation
error.  Concretely, sources `[[1,2], 3]` merge-flatten to `[1,2,3]` and
merge-nest to `[[1,2], 3]`. -/
theorem link_merge_spec (name : String) (vs : List Value) :
    ((mkPolicies name none none).link_merge vs = .ok (.list vs)) ∧
    ((mkPolicies name (some "merge_nested") none).link_merge vs =
      .ok (.list vs)) ∧
    ((mkPolicies name (some "merge_flattened") none).link_merge vs =
      .ok (.list (flattenValues vs))) ∧
    (∀ l rest, flattenValues (.list l :: rest) = l ++ flattenValues rest) ∧
    (∀ v rest, (∀ l, v ≠ Value.list l) →
      flattenValues (v :: rest) = v :: flattenValues rest) ∧
    (∀ m, m ≠ "merge_nested" → m ≠ "merge_flattened" →
      (mkPolicies name (some m) none).link_merge vs =
        .error (.validationException
          ("Unsupported linkMerge '" ++ m ++ "' on " ++ name ++ "."))) ∧
    ((mkPolicies name (some "merge_flattened") none).link_merge
        [.list [.int 1, .int 2], .int 3] =
      .ok (.list [.int 1, .int 2, .int 3])) ∧
    ((mkPolicies name (some "merge_nested") none).link_merge
        [.list [.int 1, .int 2], .int 3] =
      .ok (.list [.list [.int 1, .int 2], .int 3])) := by
  refine ⟨rfl, rfl, rfl, fun l rest => rfl, ?_, ?_, rfl, rfl⟩
  · intro v rest hv
    cases v with
    | list l => exact absurd rfl (hv l)
    | null => rfl
    | bool b => rfl
    | int n => rfl
    | str s => rfl
    | dict d => rfl
    | skipNull => rfl
  · intro m h1 h2
    simp only [ResolveSource.link_merge, mkPolicies, Option.getD]
    rw [if_neg h1, if_neg h2]

/-- C3 witness: the conditional conjuncts of `link_merge_spec`
instantiated at a scalar head value and at the unsupported policy
`"bogus"`. -/
theorem link_merge_spec_witness :
    flattenValues [.int 3, .list [.int 1]] =
      Value.int 3 :: flattenValues [.list [.int 1]] ∧
    (mkPolicies "port" (some "bogus") none).link_merge [] =
      .error (.validationException "Unsupported linkMerge 'bogus' on port.") := by
  constructor
  · exact (link_merge_spec "port" []).2.2.2.2.1 (.int 3) [.list [.int 1]]
      (fun l h => Value.noConfusion h)
  · exact (link_merge_spec "port" []).2.2.2.2.2.1 "bogus"
      (by decide) (by decide)

/-- C10: `DefaultWithSource.resolve` falls back to the default for every
*falsy* resolved source value — Python truthiness, so not only `null` but
also `False`, `0`, the empty string, the empty list and the empty mapping
— and returns the source's resolved value exactly when it is truthy. -/
theorem default_with_source_falsy (dflt : Value) (src : ResolveSource)
    (v : Value) (h : src.resolve = .ok v) :
    (DefaultWithSource.resolve { default := dflt, source := some src } =
      .ok (if v.truthy then v else dflt)) ∧
    Value.truthy .null = false ∧
    Value.truthy (.bool false) = false ∧
    Value.truthy (.int 0) = false ∧
    Value.truthy (.str "") = false ∧
    Value.truthy (.list []) = false ∧
    Value.truthy (.dict []) = false := by
  refine ⟨?_, rfl, rfl, rfl, rfl, rfl, rfl⟩
  simp only [DefaultWithSource.resolve, h]
  cases hv : v.truthy <;> simp [hv]

/-- A `ResolveSource` whose single captured tuple resolves to `0`:
used to exhibit the falsy fallback concretely. -/
def srcToZero : ResolveSource :=
  { name := "port", linkMerge := none, pickValue := none,
    promise_tuples := .one ("x", [("x", .int 0)]) }

/-- C10 witness: a source that resolves to `0` (falsy, non-null) makes
`resolve` return the default. -/
theorem default_with_source_falsy_witness :
    DefaultWithSource.resolve { default := .str "dflt", source := some srcToZero } =
      .ok (if Value.truthy (.int 0) then .int 0 else .str "dflt") ∧
    Value.truthy (.int 0) = false :=
  ⟨(default_with_source_falsy (.str "dflt") srcToZero (.int 0) rfl).1,
   (default_with_source_falsy (.str "dflt") srcToZero (.int 0) rfl).2.2.2.1⟩

/-- C5: with no `when` expression the gate always lets the step run
(`is_false` returns `false` for every input object); with an expression,
it is evaluated against the short-named resolved inputs, a boolean result
decides running versus skipping, and a non-boolean result raises a fatal
`WorkflowException`. -/
theorem conditional_is_false_spec (ev : Evaluator) (job : Dict)
    (outs : List OutEntry) :
    ((Conditional.mk none outs).is_false ev job = .ok false) ∧
    (∀ e b, ev e (shortnameDict job) = .bool b →
      (Conditional.mk (some e) outs).is_false ev job = .ok (!b)) ∧
    (∀ e, (∀ b, ev e (shortnameDict job) ≠ .bool b) →
      (Conditional.mk (some e) outs).is_false ev job =
        .error (.workflowException
          ("'" ++ e ++ "' evaluated to a non-boolean value"))) := by
  refine ⟨rfl, ?_, ?_⟩
  · intro e b hb
    simp only [Conditional.is_false, hb]
  · intro e hnb
    cases hv : ev e (shortnameDict job) with
    | bool b => exact absurd hv (hnb b)
    | null => simp only [Conditional.is_false, hv]
    | int n => simp only [Conditional.is_false, hv]
    | str s => simp only [Conditional.is_false, hv]
    | list l => simp only [Conditional.is_false, hv]
    | dict d => simp only [Conditional.is_false, hv]
    | skipNull => simp only [Conditional.is_false, hv]

/-- A concrete evaluator that always produces `true`. -/
def evAlwaysTrue : Evaluator := fun _ _ => .bool true

/-- A concrete evaluator that always produces the non-boolean `3`. -/
def evAlwaysInt : Evaluator := fun _ _ => .int 3

/-- C5 witness: `conditional_is_false_spec` at concrete evaluators — no
expression runs, a true expression runs, a non-boolean result raises. -/
theorem conditional_is_false_spec_witness :
    (Conditional.mk none []).is_false evAlwaysTrue [] = .ok false ∧
    (Conditional.mk (some "$(inputs.x)") []).is_false evAlwaysTrue [] =
      .ok false ∧
    (Conditional.mk (some "$(inputs.x)") []).is_false evAlwaysInt [] =
      .error (.workflowException
        "'$(inputs.x)' evaluated to a non-boolean value") :=
  ⟨(conditional_is_false_spec evAlwaysTrue [] []).1,
   (conditional_is_false_spec evAlwaysTrue [] []).2.1 "$(inputs.x)" true rfl,
   (conditional_is_false_spec evAlwaysInt [] []).2.2 "$(inputs.x)"
     (fun _ h => Value.noConfusion h)⟩

mutual

/-- The error flag of `_filter_skip_null` is set exactly when the value
contains a `SkipNull`. -/
theorem fsn_flag_val : (v : Value) → (filterSkipNullVal v).2 = v.containsSkip
  | .null => rfl
  | .bool _ => rfl
  | .int _ => rfl
  | .str _ => rfl
  | .skipNull => rfl
  | .list l => by
      simp only [filterSkipNullVal, Value.containsSkip, fsn_flag_list l]
  | .dict d => by
      simp only [filterSkipNullVal, Value.containsSkip, fsn_flag_dict d]

/-- List version of `fsn_flag_val`. -/
theorem fsn_flag_list :
    (l : List Value) → (filterSkipNullList l).2 = containsSkipList l
  | [] => rfl
  | v :: rest => by
      simp only [filterSkipNullList, containsSkipList, fsn_flag_val v,
        fsn_flag_list rest]

/-- Dict version of `fsn_flag_val`. -/
theorem fsn_flag_dict :
    (d : List (String × Value)) → (filterSkipNullDict d).2 = containsSkipDict d
  | [] => rfl
  | (_, v) :: rest => by
      simp only [filterSkipNullDict, containsSkipDict, fsn_flag_val v,
        fsn_flag_dict rest]

end

mutual

/-- The value returned by `_filter_skip_null` contains no `SkipNull`. -/
theorem fsn_noskip_val :
    (v : Value) → ((filterSkipNullVal v).1).containsSkip = false
  | .null => rfl
  | .bool _ => rfl
  | .int _ => rfl
  | .str _ => rfl
  | .skipNull => rfl
  | .list l => by
      simp only [filterSkipNullVal, Value.containsSkip]
      exact fsn_noskip_list l
  | .dict d => by
      simp only [filterSkipNullVal, Value.containsSkip]
      exact fsn_noskip_dict d

/-- List version of `fsn_noskip_val`. -/
theorem fsn_noskip_list :
    (l : List Value) → containsSkipList (filterSkipNullList l).1 = false
  | [] => rfl
  | v :: rest => by
      simp only [filterSkipNullList, containsSkipList, fsn_noskip_val v,
        fsn_noskip_list rest, Bool.or_self]

/-- Dict version of `fsn_noskip_val`. -/
theorem fsn_noskip_dict :
    (d : List (String × Value)) → containsSkipDict (filterSkipNullDict d).1 = false
  | [] => rfl
  | (_, v) :: rest => by
      simp only [filterSkipNullDict, containsSkipDict, fsn_noskip_val v,
        fsn_noskip_dict rest, Bool.or_self]

end

mutual

/-- On a value without `SkipNull` markers, `_filter_skip_null` is the
identity. -/
theorem fsn_id_val :
    (v : Value) → v.containsSkip = false → (filterSkipNullVal v).1 = v
  | .null, _ => rfl
  | .bool _, _ => rfl
  | .int _, _ => rfl
  | .str _, _ => rfl
  | .skipNull, h => by simp only [Value.containsSkip] at h; cases h
  | .list l, h => by
      simp only [Value.containsSkip] at h
      simp only [filterSkipNullVal]
      exact congrArg Value.list (fsn_id_list l h)
  | .dict d, h => by
      simp only [Value.containsSkip] at h
      simp only [filterSkipNullVal]
      exact congrArg Value.dict (fsn_id_dict d h)

/-- List version of `fsn_id_val`. -/
theorem fsn_id_list :
    (l : List Value) → containsSkipList l = false → (filterSkipNullList l).1 = l
  | [], _ => rfl
  | v :: rest, h => by
      simp only [containsSkipList, Bool.or_eq_false_iff] at h
      simp only [filterSkipNullList]
      rw [fsn_id_val v h.1, fsn_id_list rest h.2]

/-- Dict version of `fsn_id_val`. -/
theorem fsn_id_dict :
    (d : List (String × Value)) → containsSkipDict d = false →
      (filterSkipNullDict d).1 = d
  | [], _ => rfl
  | (k, v) :: rest, h => by
      simp only [containsSkipDict, Bool.or_eq_false_iff] at h
      simp only [filterSkipNullDict]
      rw [fsn_id_val v h.1, fsn_id_dict rest h.2]

end

mutual

/-- The value computed by `_filter_skip_null` is exactly the spec's
recursive substitution of every `SkipNull` marker by ordinary null. -/
theorem fsn_replace_val : (v : Value) → (filterSkipNullVal v).1 = v.replaceSkip
  | .null => rfl
  | .bool _ => rfl
  | .int _ => rfl
  | .str _ => rfl
  | .skipNull => rfl
  | .list l => by
      simp only [filterSkipNullVal, Value.replaceSkip, fsn_replace_list l]
  | .dict d => by
      simp only [filterSkipNullVal, Value.replaceSkip, fsn_replace_dict d]

/-- List version of `fsn_replace_val`. -/
theorem fsn_replace_list :
    (l : List Value) → (filterSkipNullList l).1 = replaceSkipList l
  | [] => rfl
  | v :: rest => by
      simp only [filterSkipNullList, replaceSkipList, fsn_replace_val v,
        fsn_replace_list rest]

/-- Dict version of `fsn_replace_val`. -/
theorem fsn_replace_dict :
    (d : List (String × Value)) → (filterSkipNullDict d).1 = replaceSkipDict d
  | [] => rfl
  | (_, v) :: rest => by
      simp only [filterSkipNullDict, replaceSkipDict, fsn_replace_val v,
        fsn_replace_dict rest]

end

/-- Looking up any declared output's short name in the skipped-outputs
dict yields `SkipNull` (all entries carry `SkipNull`, so duplicated short
names are harmless). -/
theorem get_skipped_outputs (outs : List OutEntry) (o : OutEntry)
    (ho : o ∈ outs) :
    Dict.get (outs.map fun o => (o.sn, Value.skipNull)) o.sn =
      some .skipNull := by
  induction outs with
  | nil => cases ho
  | cons x rest ih =>
      simp only [List.map]
      by_cases hx : x.sn = o.sn
      · simp only [Dict.get, if_pos hx]
      · simp only [Dict.get, if_neg hx]
        cases ho with
        | head => exact absurd rfl hx
        | tail _ hmem => exact ih hmem

/-- C6: when the conditional gate's expression is false, the wrapped
executable unit (`body`) is never run — the result is the skipped-outputs
dict regardless of the body — and that dict maps every declared output
port short name to a `SkipNull` marker; `filter_skip_null` (applied by
every consumer without a pick-value policy, cwltoil.py:260) recursively
substitutes each remaining `SkipNull` with ordinary null — its value is
exactly `Value.replaceSkip` (every skip marker becomes `null`, recursing
through lists and dicts, everything else unchanged), hence skip-free,
with values without markers passing through unchanged with no diagnostic
— and records a diagnostic naming the offending port exactly when at
least one substitution occurred. -/
theorem conditional_skip_spec (ev : Evaluator) (c : Conditional) (job : Dict)
    (h : c.is_false ev job = .ok true) :
    (∀ body, runWithConditional c ev job body = .ok c.skipped_outputs) ∧
    (∀ body1 body2,
      runWithConditional c ev job body1 = runWithConditional c ev job body2) ∧
    (∀ o ∈ c.outputs,
      Dict.get c.skipped_outputs o.sn = some Value.skipNull) ∧
    (∀ name v, (filter_skip_null name v).1 = v.replaceSkip) ∧
    (∀ name v, ((filter_skip_null name v).1).containsSkip = false) ∧
    (∀ name v, v.containsSkip = false → filter_skip_null name v = (v, none)) ∧
    (∀ name v, v.containsSkip = true →
      (filter_skip_null name v).2 =
        some ("In " ++ name ++ ", SkipNull result found and cast to None. \n" ++
          "You had a conditional step that did not run, " ++
          "but you did not use pickValue to handle the skipped input.")) := by
  refine ⟨?_, ?_, ?_, ?_, ?_, ?_, ?_⟩
  · intro body
    simp only [runWithConditional, h]
  · intro body1 body2
    simp only [runWithConditional, h]
  · intro o ho
    exact get_skipped_outputs c.outputs o ho
  · intro name v
    simp only [filter_skip_null]
    exact fsn_replace_val v
  · intro name v
    simp only [filter_skip_null]
    exact fsn_noskip_val v
  · intro name v hv
    simp only [filter_skip_null, fsn_flag_val v, hv, fsn_id_val v hv,
      if_neg (Bool.false_ne_true)]
  · intro name v hv
    simp only [filter_skip_null, fsn_flag_val v, hv, if_pos trivial, if_true]

/-- A conditional gate whose expression is the constant `false` under
`evAlwaysFalse`, with one declared output. -/
def evAlwaysFalse : Evaluator := fun _ _ => .bool false

/-- C6 witness: a gate over output port `o1` whose expression evaluates
to `false`: the step body is skipped, the output maps to `SkipNull`, and
filtering the value `[Skipped, 1]` substitutes the marker with ordinary
null — the value becomes `[null, 1]` — and yields the diagnostic. -/
theorem conditional_skip_spec_witness :
    runWithConditional
        (Conditional.mk (some "$(false)") [.mapping "step/o1"]) evAlwaysFalse []
        (fun j => .ok j) =
      .ok (Conditional.skipped_outputs
        (Conditional.mk (some "$(false)") [.mapping "step/o1"])) ∧
    Dict.get (Conditional.skipped_outputs
        (Conditional.mk (some "$(false)") [.mapping "step/o1"]))
        (OutEntry.sn (.mapping "step/o1")) = some Value.skipNull ∧
    (filter_skip_null "step/o1" (.list [.skipNull, .int 1])).1 =
      Value.replaceSkip (.list [.skipNull, .int 1]) ∧
    Value.replaceSkip (.list [.skipNull, .int 1]) =
      .list [.null, .int 1] ∧
    (filter_skip_null "step/o1" (.list [.skipNull, .int 1])).2 =
      some ("In step/o1, SkipNull result found and cast to None. \n" ++
        "You had a conditional step that did not run, " ++
        "but you did not use pickValue to handle the skipped input.") := by
  have hf : (Conditional.mk (some "$(false)") [.mapping "step/o1"]).is_false
      evAlwaysFalse [] = .ok true := rfl
  have h := conditional_skip_spec evAlwaysFalse
    (Conditional.mk (some "$(false)") [.mapping "step/o1"]) [] hf
  exact ⟨h.1 (fun j => .ok j),
    h.2.2.1 (.mapping "step/o1") (List.mem_singleton.mpr rfl),
    h.2.2.2.1 "step/o1" (.list [.skipNull, .int 1]),
    rfl,
    h.2.2.2.2.2.2 "step/o1" (.list [.skipNull, .int 1]) rfl⟩

/-- C1 (refuting the claim on the code): on the cyclic two-step workflow,
one full pass of the unrolling loop schedules nothing, changes nothing,
and leaves `all_outputs_fulfilled = false` — a no-progress fixpoint with
unresolvable outputs.  Since `CWLWorkflow.run`'s
`while not all_outputs_fulfilled` loop (cwltoil.py:1080-1170) contains no
deadlock detection and raises no error, the loop therefore never exits:
for every pass bound (fuel) it is still running.  No `DeadlockError` (or
any other error) is ever reported. -/
theorem cyclic_workflow_loops_forever :
    onePass cyclicWF (initState cyclicWF) = (initState cyclicWF, false) ∧
    ∀ n, unrollLoop cyclicWF n (initState cyclicWF) = none := by
  have hfix : onePass cyclicWF (initState cyclicWF) =
      (initState cyclicWF, false) := rfl
  refine ⟨hfix, ?_⟩
  intro n
  induction n with
  | zero => rfl
  | succ n ih =>
      show (let r := onePass cyclicWF (initState cyclicWF)
            if r.2 then some r.1 else unrollLoop cyclicWF n r.1) = none
      rw [hfix]
      exact ih

/-- C4: with exactly one declared source and no explicit `linkMerge`,
`ResolveSource` captures one bare promise tuple and `resolve` returns
that source's resolved value directly, not wrapped in a one-element list;
as soon as a `linkMerge` policy is present or there is more than one
source, the tuples are captured as a list, the looked-up values are
collected into a list and passed through `link_merge` — so two sources
under the default policy resolve to the two-element list, and even a
single source with an explicit `merge_nested` resolves to a one-element
list. -/
theorem resolve_single_source_spec (name s s1 s2 : String)
    (env : String → Dict) (v v1 v2 : Value) :
    ((ResolveSource.make name { sources := [s] } env).promise_tuples =
      .one (shortname s, env s)) ∧
    (Dict.get (env s) (shortname s) = some v → v.containsSkip = false →
      (ResolveSource.make name { sources := [s] } env).resolve = .ok v) ∧
    (∀ input : InputSpec,
      truthyOptStr input.linkMerge = true ∨ input.sources.length > 1 →
      (ResolveSource.make name input env).promise_tuples =
        .many (input.sources.map fun s => (shortname s, env s))) ∧
    (Dict.get (env s1) (shortname s1) = some v1 →
      Dict.get (env s2) (shortname s2) = some v2 →
      v1.containsSkip = false → v2.containsSkip = false →
      (ResolveSource.make name { sources := [s1, s2] } env).resolve =
        .ok (.list [v1, v2])) ∧
    (Dict.get (env s) (shortname s) = some v → v.containsSkip = false →
      (ResolveSource.make name
          { sources := [s], linkMerge := some "merge_nested" } env).resolve =
        .ok (.list [v])) := by
  refine ⟨rfl, ?_, ?_, ?_, ?_⟩
  · intro hget hskip
    have hmk : ResolveSource.make name { sources := [s] } env =
        { name := name, linkMerge := none, pickValue := none,
          promise_tuples := .one (shortname s, env s) } := rfl
    rw [hmk]
    simp only [ResolveSource.resolve, ResolveSource.pick_value, hget,
      Option.getD_some, filter_skip_null, fsn_id_val v hskip]
  · intro input h
    have hc : (truthyOptStr input.linkMerge ||
        decide (input.sources.length > 1)) = true := by
      rcases h with h | h
      · simp [h]
      · simp [h]
    simp only [ResolveSource.make, hc, if_true]
  · intro hget1 hget2 hskip1 hskip2
    have hmk : ResolveSource.make name { sources := [s1, s2] } env =
        { name := name, linkMerge := none, pickValue := none,
          promise_tuples :=
            .many [(shortname s1, env s1), (shortname s2, env s2)] } := rfl
    rw [hmk]
    have hskips : Value.containsSkip (.list [v1, v2]) = false := by
      simp only [Value.containsSkip, containsSkipList, hskip1, hskip2,
        Bool.or_self, Bool.false_or]
    simp only [ResolveSource.resolve, lookupTuples, hget1, hget2,
      ResolveSource.link_merge, ResolveSource.pick_value, Option.getD,
      filter_skip_null, fsn_id_val _ hskips, if_pos rfl, if_true]
  · intro hget hskip
    have hmk : ResolveSource.make name
        { sources := [s], linkMerge := some "merge_nested" } env =
        { name := name, linkMerge := some "merge_nested", pickValue := none,
          promise_tuples := .many [(shortname s, env s)] } := rfl
    rw [hmk]
    have hskips : Value.containsSkip (.list [v]) = false := by
      simp only [Value.containsSkip, containsSkipList, hskip, Bool.or_self]
    simp only [ResolveSource.resolve, lookupTuples, hget,
      ResolveSource.link_merge, ResolveSource.pick_value, Option.getD,
      filter_skip_null, fsn_id_val _ hskips, if_pos rfl, if_true]

/-- A concrete promise environment for the C4 witness: source `a` is a
job whose output dict binds its short name to `7`, source `b` binds `8`. -/
def envAB : String → Dict := fun s =>
  if s = "a" then [("a", .int 7)] else [("b", .int 8)]

/-- C4 witness: `resolve_single_source_spec` at the concrete environment
`envAB` — one bare source resolves to `7` unwrapped; two sources resolve
to `[7, 8]`; one source with explicit `merge_nested` resolves to `[7]`. -/
theorem resolve_single_source_spec_witness :
    (ResolveSource.make "p" { sources := ["a"] } envAB).resolve =
      .ok (.int 7) ∧
    (ResolveSource.make "p" { sources := ["a", "b"] } envAB).resolve =
      .ok (.list [.int 7, .int 8]) ∧
    (ResolveSource.make "p"
        { sources := ["a"], linkMerge := some "merge_nested" } envAB).resolve =
      .ok (.list [.int 7]) := by
  have h := resolve_single_source_spec "p" "a" "a" "b" envAB
    (.int 7) (.int 7) (.int 8)
  exact ⟨h.2.1 rfl rfl, h.2.2.2.1 rfl rfl rfl rfl, h.2.2.2.2 rfl rfl⟩

/-- Setting a key makes it readable. -/
theorem Dict.get_set_self (d : Dict) (k : String) (v : Value) :
    (d.set k v).get k = some v := by
  induction d with
  | nil => simp [Dict.set, Dict.get]
  | cons p rest ih =>
      obtain ⟨k', v'⟩ := p
      by_cases h : k' = k
      · simp [Dict.set, h, Dict.get]
      · simp [Dict.set, h, Dict.get, ih]

/-- Setting one key leaves every other key unchanged. -/
theorem Dict.get_set_ne (d : Dict) (k k2 : String) (v : Value)
    (h : k ≠ k2) : (d.set k v).get k2 = d.get k2 := by
  induction d with
  | nil => simp [Dict.set, Dict.get, h]
  | cons p rest ih =>
      obtain ⟨k', v'⟩ := p
      by_cases hk : k' = k
      · subst hk
        simp [Dict.set, Dict.get, h, ih]
      · simp [Dict.set, hk, Dict.get, ih]

/-- `getList` version of `Dict.get_set_ne`. -/
theorem Dict.getList_set_ne (d : Dict) (k k2 : String) (v : Value)
    (h : k ≠ k2) : (d.set k v).getList k2 = d.getList k2 := by
  simp [Dict.getList, Dict.get_set_ne d k k2 v h]

/-- With no `valueFrom` ports, `postScatterEval` is the identity. -/
theorem postScatterEval_nil (ev : CtxEvaluator) (io : Dict) :
    postScatterEval ev [] io = io := by
  show io.map (fun p => p) = io
  induction io with
  | nil => rfl
  | cons p rest ih => simp only [List.map]; rw [ih]

/-- `flat_crossproduct_scatter` at the innermost scatter key: one
sub-job per array element, in array order. -/
theorem flatCPList_nil (pse : Dict → Dict) (jo : Dict) (key : String) :
    ∀ arr : List Value,
      flatCPList pse [] jo key arr =
        arr.map fun el => .job (pse (jo.set key el))
  | [] => by simp [flatCPList]
  | el :: els => by
      simp [flatCPList, flatCPList_nil pse jo key els]

/-- `nested_crossproduct_scatter` at the innermost scatter key. -/
theorem nestedCPList_nil (pse : Dict → Dict) (jo : Dict) (key : String) :
    ∀ arr : List Value,
      nestedCPList pse [] jo key arr =
        arr.map fun el => .job (pse (jo.set key el))
  | [] => by simp [nestedCPList]
  | el :: els => by
      simp [nestedCPList, nestedCPList_nil pse jo key els]

/-- `flat_crossproduct_scatter` over two scatter keys whose second array
is read from the job order after the first substitution: the flat
row-major double loop. -/
theorem flatCPList_pair (pse : Dict → Dict) (jo : Dict) (kp kq : String)
    (arrB : List Value) (hpq : kp ≠ shortname kq)
    (hB : jo.get (shortname kq) = some (.list arrB)) :
    ∀ arrA : List Value,
      flatCPList pse [kq] jo kp arrA =
        arrA.flatMap fun x => arrB.map fun y =>
          Nested.job (pse ((jo.set kp x).set (shortname kq) y))
  | [] => by simp [flatCPList]
  | el :: els => by
      have hget : (jo.set kp el).getList (shortname kq) = arrB := by
        rw [Dict.getList_set_ne _ _ _ _ hpq]
        simp [Dict.getList, hB]
      simp [flatCPList, flatCPList_pair pse jo kp kq arrB hpq hB els,
        flatCPList_nil, hget]

/-- `nested_crossproduct_scatter` over two scatter keys: the grouped
double loop — one inner sequence per element of the first array. -/
theorem nestedCPList_pair (pse : Dict → Dict) (jo : Dict) (kp kq : String)
    (arrB : List Value) (hpq : kp ≠ shortname kq)
    (hB : jo.get (shortname kq) = some (.list arrB)) :
    ∀ arrA : List Value,
      nestedCPList pse [kq] jo kp arrA =
        arrA.map fun x => Nested.seq (arrB.map fun y =>
          Nested.job (pse ((jo.set kp x).set (shortname kq) y)))
  | [] => by simp [nestedCPList]
  | el :: els => by
      have hget : (jo.set kp el).getList (shortname kq) = arrB := by
        rw [Dict.getList_set_ne _ _ _ _ hpq]
        simp [Dict.getList, hB]
      simp [nestedCPList, nestedCPList_pair pse jo kp kq arrB hpq hB els,
        nestedCPList_nil, hget]

/-- The flat cross-product enumerates exactly the leaves of the nested
cross-product, in the same (lexicographic, port-order) order — for any
number of remaining scatter keys. -/
theorem flat_eq_leaves_nested (pse : Dict → Dict) :
    (rest : List String) → (jo : Dict) → (key : String) →
    (arr : List Value) →
      flatCPList pse rest jo key arr =
        (leavesOf (nestedCPList pse rest jo key arr)).map Nested.job
  | _, _, _, [] => by simp [flatCPList, nestedCPList, leavesOf]
  | [], jo, key, el :: els => by
      simp [flatCPList, nestedCPList, leavesOf,
        flat_eq_leaves_nested pse [] jo key els]
  | k2 :: rest2, jo, key, el :: els => by
      have h1 := flat_eq_leaves_nested pse rest2 (Dict.set jo key el)
        (shortname k2) ((Dict.set jo key el).getList (shortname k2))
      have h2 := flat_eq_leaves_nested pse (k2 :: rest2) jo key els
      simp [flatCPList, nestedCPList, leavesOf, h1, h2]
  termination_by rest _ _ arr => (rest.length, arr.length)

/-- The dotproduct substitution fold leaves keys that are no scattered
port's short name untouched. -/
theorem dotFold_get_other (cwljob : Dict) (i : Nat) :
    ∀ (names : List String) (d0 : Dict) (k : String),
      (∀ q ∈ names, shortname q ≠ k) →
      (names.foldl
        (fun jo x => Dict.set jo (shortname x) (cwljob.getIndex (shortname x) i))
        d0).get k = d0.get k
  | [], _, _, _ => rfl
  | x :: rest, d0, k, h => by
      simp only [List.foldl]
      rw [dotFold_get_other cwljob i rest _ k
        (fun q hq => h q (List.mem_cons_of_mem x hq))]
      exact Dict.get_set_ne _ _ _ _ (h x (List.mem_cons_self x rest))

/-- The dotproduct substitution fold binds every scattered port's short
name to the i-th element of that port's array in the original job
object. -/
theorem dotFold_get_scattered (cwljob : Dict) (i : Nat) :
    ∀ (names : List String) (d0 : Dict) (k : String),
      k ∈ names.map shortname →
      (names.foldl
        (fun jo x => Dict.set jo (shortname x) (cwljob.getIndex (shortname x) i))
        d0).get k = some (cwljob.getIndex k i)
  | [], _, _, hk => by cases hk
  | x :: rest, d0, k, hk => by
      simp only [List.foldl]
      by_cases hmem : k ∈ rest.map shortname
      · exact dotFold_get_scattered cwljob i rest _ k hmem
      · have hx : shortname x = k := by
          rcases List.mem_map.mp hk with ⟨q, hq, hqk⟩
          cases hq with
          | head => exact hqk
          | tail _ hqrest => exact absurd (hqk ▸ List.mem_map_of_mem shortname hqrest) hmem
        rw [dotFold_get_other cwljob i rest _ k
          (fun q hq hqe => hmem (hqe ▸ List.mem_map_of_mem shortname hq))]
        rw [← hx, Dict.get_set_self]

/-- C7: under the dotproduct policy — which is forced whenever exactly
one port is scattered, regardless of any declared `scatterMethod` — over
scattered arrays of common length `N`, exactly `N` sub-jobs are created,
the i-th sub-job binds every scattered port's short name to the i-th
element of that port's input array, and every key that is no scattered
port's short name is unchanged from the step's input object.  (Stated
for steps without `valueFrom` ports, whose `postScatterEval` is the
identity.) -/
theorem dotproduct_scatter_spec (ev : CtxEvaluator) (step : ScatterStep)
    (cwljob : Dict) (N : Nat)
    (hnoVF : ∀ inp ∈ step.inputs, inp.valueFrom = none)
    (hforce : step.scatter.norm.length = 1 ∨
      step.scatterMethod = some "dotproduct")
    (hne : step.scatter.norm ≠ [])
    (hlen : ∀ q ∈ step.scatter.norm,
      (cwljob.getList (shortname q)).length = N) :
    ∃ jobs : List Dict,
      scatterRun ev step cwljob = .ok (jobs.map Nested.job) ∧
      jobs.length = N ∧
      (∀ i jo, jobs.get? i = some jo →
        (∀ q ∈ step.scatter.norm,
          ∃ a, (cwljob.getList (shortname q)).get? i = some a ∧
            jo.get (shortname q) = some a) ∧
        (∀ k, (∀ q ∈ step.scatter.norm, shortname q ≠ k) →
          jo.get k = cwljob.get k)) := by
  have hvf : (step.inputs.filterMap fun inp =>
      inp.valueFrom.map fun e => (shortname inp.id, e)) = [] := by
    rw [List.filterMap_eq_nil]
    intro inp hinp
    rw [hnoVF inp hinp]
    rfl
  have hpse : ∀ io, postScatterEval ev (step.inputs.filterMap fun inp =>
      inp.valueFrom.map fun e => (shortname inp.id, e)) io = io := by
    intro io; rw [hvf]; exact postScatterEval_nil ev io
  have hmeth : (if step.scatter.norm.length = 1 then some "dotproduct"
      else step.scatterMethod) = some "dotproduct" := by
    rcases hforce with h | h
    · rw [if_pos h]
    · by_cases h1 : step.scatter.norm.length = 1
      · rw [if_pos h1]
      · rw [if_neg h1]; exact h
  have hhead : step.scatter.norm.headD "" ∈ step.scatter.norm := by
    cases hsn : step.scatter.norm with
    | nil => exact absurd hsn hne
    | cons a l => exact List.mem_cons_self a l
  have hN : (cwljob.getList (shortname (step.scatter.norm.headD ""))).length
      = N := hlen _ hhead
  refine ⟨(List.range N).map (fun i =>
    step.scatter.norm.foldl
      (fun jo x => Dict.set jo (shortname x) (cwljob.getIndex (shortname x) i))
      cwljob), ?_, ?_, ?_⟩
  · simp only [scatterRun, hmeth, if_pos rfl, dotproductScatter, hN,
      List.map_map, Function.comp]
    simp only [hpse, if_true, Function.comp_def]
  · simp [List.length_map, List.length_range]
  · intro i jo hjo
    rw [List.get?_map] at hjo
    have hi : i < N := by
      by_contra hge
      rw [List.get?_eq_none.mpr (by simpa using Nat.le_of_not_lt hge)] at hjo
      cases hjo
    rw [List.get?_eq_get (by simpa using hi)] at hjo
    have hjo' : jo = step.scatter.norm.foldl
        (fun jo x => Dict.set jo (shortname x) (cwljob.getIndex (shortname x) i))
        cwljob := by
      have := hjo
      simp only [Option.map_some'] at this
      cases this
      simp [List.get_range]
    subst hjo'
    constructor
    · intro q hq
      have hqlen : (cwljob.getList (shortname q)).length = N := hlen q hq
      refine ⟨(cwljob.getList (shortname q)).get ⟨i, by rw [hqlen]; exact hi⟩,
        List.get?_eq_get _, ?_⟩
      rw [dotFold_get_scattered cwljob i step.scatter.norm cwljob (shortname q)
        (List.mem_map_of_mem shortname hq)]
      simp only [Dict.getIndex, List.get?_eq_get (by rw [hqlen]; exact hi),
        Option.getD_some]
    · intro k hk
      exact dotFold_get_other cwljob i step.scatter.norm cwljob k hk

/-- A concrete context evaluator (identity on the context). -/
def evCtx0 : CtxEvaluator := fun _ _ v => v

/-- A concrete dotproduct scatter step over ports `s1` and `s2`. -/
def stepDot : ScatterStep :=
  { scatter := .list ["s1", "s2"], scatterMethod := some "dotproduct",
    inputs := [] }

/-- A concrete scatter input object: two scattered arrays of length two
and one non-scattered port. -/
def cwljobDot : Dict :=
  [("s1", .list [.int 1, .int 2]), ("s2", .list [.int 3, .int 4]),
   ("c", .int 9)]

/-- C7 witness: `dotproduct_scatter_spec` on `stepDot` over `cwljobDot`
(arrays of length 2). -/
theorem dotproduct_scatter_spec_witness :
    ∃ jobs : List Dict,
      scatterRun evCtx0 stepDot cwljobDot = .ok (jobs.map Nested.job) ∧
      jobs.length = 2 ∧
      (∀ i jo, jobs.get? i = some jo →
        (∀ q ∈ stepDot.scatter.norm,
          ∃ a, (cwljobDot.getList (shortname q)).get? i = some a ∧
            jo.get (shortname q) = some a) ∧
        (∀ k, (∀ q ∈ stepDot.scatter.norm, shortname q ≠ k) →
          jo.get k = cwljobDot.get k)) :=
  dotproduct_scatter_spec evCtx0 stepDot cwljobDot 2
    (fun inp hinp => absurd hinp (List.not_mem_nil inp))
    (Or.inr rfl)
    (by intro h; cases h)
    (by
      intro q hq
      have : q = "s1" ∨ q = "s2" := by
        simpa [stepDot, ScatterField.norm] using hq
      rcases this with rfl | rfl <;> rfl)

/-- Length of a rectangular flat cross product. -/
theorem flatMap_map_length (arrA arrB : List Value)
    (f : Value → Value → Nested) :
    (arrA.flatMap fun x => arrB.map (f x)).length =
      arrA.length * arrB.length := by
  induction arrA with
  | nil => simp
  | cons x xs ih =>
      simp [List.flatMap_cons, ih, Nat.succ_mul, Nat.add_comm]

/-- C8: over two scattered ports with arrays of lengths `a` and `b`,
`flat_crossproduct` produces exactly `a·b` sub-jobs as one flat sequence
in row-major (outer port first) order, and `nested_crossproduct` produces
an `a`-length outer sequence of `b`-length inner sequences of the same
sub-jobs; in general, for any number of scattered ports, the flat cross
product is exactly the leaf sequence of the nested cross product in the
same order.  (Stated for steps without `valueFrom` ports.) -/
theorem crossproduct_scatter_spec (ev : CtxEvaluator)
    (inputs : List ScatterInputDecl) (p q : String) (cwljob : Dict)
    (arrA arrB : List Value)
    (hnoVF : ∀ inp ∈ inputs, inp.valueFrom = none)
    (hpq : shortname p ≠ shortname q)
    (hA : cwljob.get (shortname p) = some (.list arrA))
    (hB : cwljob.get (shortname q) = some (.list arrB)) :
    (scatterRun ev
        { scatter := .list [p, q], scatterMethod := some "flat_crossproduct",
          inputs := inputs } cwljob =
      .ok (arrA.flatMap fun x => arrB.map fun y =>
        Nested.job ((cwljob.set (shortname p) x).set (shortname q) y))) ∧
    ((arrA.flatMap fun x => arrB.map fun y =>
        Nested.job ((cwljob.set (shortname p) x).set (shortname q) y)).length =
      arrA.length * arrB.length) ∧
    (scatterRun ev
        { scatter := .list [p, q], scatterMethod := some "nested_crossproduct",
          inputs := inputs } cwljob =
      .ok (arrA.map fun x => Nested.seq (arrB.map fun y =>
        Nested.job ((cwljob.set (shortname p) x).set (shortname q) y)))) ∧
    (∀ (pse : Dict → Dict) rest jo key arr,
      flatCPList pse rest jo key arr =
        (leavesOf (nestedCPList pse rest jo key arr)).map Nested.job) := by
  have hvf : (inputs.filterMap fun inp =>
      inp.valueFrom.map fun e => (shortname inp.id, e)) = [] := by
    rw [List.filterMap_eq_nil]
    intro inp hinp
    rw [hnoVF inp hinp]
    rfl
  have hpse : ∀ io, postScatterEval ev (inputs.filterMap fun inp =>
      inp.valueFrom.map fun e => (shortname inp.id, e)) io = io := by
    intro io; rw [hvf]; exact postScatterEval_nil ev io
  have hgetA : cwljob.getList (shortname p) = arrA := by
    simp [Dict.getList, hA]
  refine ⟨?_, flatMap_map_length arrA arrB _, ?_,
    fun pse rest jo key arr => flat_eq_leaves_nested pse rest jo key arr⟩
  · have hmeth : (if (ScatterField.list [p, q]).norm.length = 1
        then some "dotproduct" else some "flat_crossproduct") =
        (some "flat_crossproduct" : Option String) := by
      simp [ScatterField.norm]
    simp only [scatterRun, hmeth]
    rw [if_pos trivial]
    simp only [ScatterField.norm, flat_crossproduct_scatter, hgetA,
      flatCPList_pair _ cwljob (shortname p) q arrB hpq hB arrA, hpse]
    rw [if_neg (by decide), if_neg (by decide)]
  · have hmeth : (if (ScatterField.list [p, q]).norm.length = 1
        then some "dotproduct" else some "nested_crossproduct") =
        (some "nested_crossproduct" : Option String) := by
      simp [ScatterField.norm]
    simp only [scatterRun, hmeth]
    rw [if_pos trivial]
    simp only [ScatterField.norm, nested_crossproduct_scatter, hgetA,
      nestedCPList_pair _ cwljob (shortname p) q arrB hpq hB arrA, hpse]
    rw [if_neg (by decide)]

/-- C8 witness: `crossproduct_scatter_spec` on the two scattered arrays
`[1, 2]` and `[3, 4]` of `cwljobDot` — four flat sub-jobs in row-major
order, and a 2×2 nested grouping of the same sub-jobs. -/
theorem crossproduct_scatter_spec_witness :
    (scatterRun evCtx0
        { scatter := .list ["s1", "s2"],
          scatterMethod := some "flat_crossproduct", inputs := [] }
        cwljobDot =
      .ok (([.int 1, .int 2] : List Value).flatMap fun x =>
        ([.int 3, .int 4] : List Value).map fun y =>
          Nested.job ((cwljobDot.set (shortname "s1") x).set (shortname "s2") y))) ∧
    ((([.int 1, .int 2] : List Value).flatMap fun x =>
        ([.int 3, .int 4] : List Value).map fun y =>
          Nested.job ((cwljobDot.set (shortname "s1") x).set (shortname "s2") y)).length =
      ([.int 1, .int 2] : List Value).length * ([.int 3, .int 4] : List Value).length) ∧
    (scatterRun evCtx0
        { scatter := .list ["s1", "s2"],
          scatterMethod := some "nested_crossproduct", inputs := [] }
        cwljobDot =
      .ok (([.int 1, .int 2] : List Value).map fun x =>
        Nested.seq (([.int 3, .int 4] : List Value).map fun y =>
          Nested.job ((cwljobDot.set (shortname "s1") x).set (shortname "s2") y)))) := by
  have h := crossproduct_scatter_spec evCtx0 [] "s1" "s2" cwljobDot
    [.int 1, .int 2] [.int 3, .int 4]
    (fun inp hinp => absurd hinp (List.not_mem_nil inp))
    (by decide) rfl rfl
  exact ⟨h.1, h.2.1, h.2.2.1⟩

/-- C9: with more than one scattered port, `CWLScatter.run` raises a
fatal `ValidationException` exactly when the declared `scatterMethod` is
missing or is a string other than `dotproduct`, `nested_crossproduct`
and `flat_crossproduct` (the empty string, being falsy, takes the
"must provide" message); with a supported method — or with exactly one
scattered port, where the method is forced to dotproduct — no error is
raised and the sub-job collection is returned. -/
theorem scatter_validation_spec (ev : CtxEvaluator) (step : ScatterStep)
    (cwljob : Dict) :
    (1 < step.scatter.norm.length →
      (step.scatterMethod = none →
        scatterRun ev step cwljob = .error (.validationException
          "Must provide scatterMethod to scatter over multiple inputs.")) ∧
      (∀ m, step.scatterMethod = some m →
        m ∉ (["dotproduct", "nested_crossproduct",
          "flat_crossproduct"] : List String) → m ≠ "" →
        scatterRun ev step cwljob = .error (.validationException
          ("Unsupported complex scatter type '" ++ m ++ "'"))) ∧
      (step.scatterMethod = some "" →
        scatterRun ev step cwljob = .error (.validationException
          "Must provide scatterMethod to scatter over multiple inputs.")) ∧
      (∀ m, step.scatterMethod = some m →
        m ∈ (["dotproduct", "nested_crossproduct",
          "flat_crossproduct"] : List String) →
        ∃ out, scatterRun ev step cwljob = .ok out)) ∧
    (step.scatter.norm.length = 1 →
      ∃ out, scatterRun ev step cwljob = .ok out) := by
  constructor
  · intro hgt
    have hne1 : ¬ (step.scatter.norm.length = 1) := by omega
    refine ⟨?_, ?_, ?_, ?_⟩
    · intro hm
      simp only [scatterRun, if_neg hne1, hm]
      rw [if_neg (by decide), if_neg (by decide), if_neg (by decide),
        if_neg (by decide)]
    · intro m hm hnot hne'
      have hd : ¬ (m = "dotproduct") := by rintro rfl; exact hnot (by decide)
      have hn : ¬ (m = "nested_crossproduct") := by
        rintro rfl; exact hnot (by decide)
      have hf : ¬ (m = "flat_crossproduct") := by
        rintro rfl; exact hnot (by decide)
      simp only [scatterRun, if_neg hne1, hm]
      rw [if_neg (by simp [hd]), if_neg (by simp [hn]), if_neg (by simp [hf]),
        if_pos (by simp [truthyOptStr, hne'])]
      simp [Option.getD]
    · intro hm
      simp only [scatterRun, if_neg hne1, hm]
      rw [if_neg (by decide), if_neg (by decide), if_neg (by decide),
        if_neg (by decide)]
    · intro m hm hmem
      rcases (by simpa using hmem : m = "dotproduct" ∨
          m = "nested_crossproduct" ∨ m = "flat_crossproduct") with
        rfl | rfl | rfl
      · exact ⟨_, by
          simp only [scatterRun, if_neg hne1, hm]; rw [if_pos trivial]⟩
      · exact ⟨_, by
          simp only [scatterRun, if_neg hne1, hm]
          rw [if_pos trivial,
            if_neg (show ¬ ((some "nested_crossproduct" : Option String) =
              some "dotproduct") by decide)]⟩
      · exact ⟨_, by
          simp only [scatterRun, if_neg hne1, hm]
          rw [if_pos trivial,
            if_neg (show ¬ ((some "flat_crossproduct" : Option String) =
              some "nested_crossproduct") by decide),
            if_neg (show ¬ ((some "flat_crossproduct" : Option String) =
              some "dotproduct") by decide)]⟩
  · intro h1
    exact ⟨_, by simp only [scatterRun, if_pos h1]; rw [if_pos trivial]⟩

/-- C9 witness: `scatter_validation_spec` at concrete steps — two ports
with no method and two ports with a bogus method each raise a
`ValidationException`; two ports with `flat_crossproduct`, and a single
port even with a bogus declared method (forced dotproduct), return
sub-jobs. -/
theorem scatter_validation_spec_witness :
    scatterRun evCtx0
        { scatter := .list ["a", "b"], scatterMethod := none, inputs := [] }
        [] =
      .error (.validationException
        "Must provide scatterMethod to scatter over multiple inputs.") ∧
    scatterRun evCtx0
        { scatter := .list ["a", "b"], scatterMethod := some "bogus",
          inputs := [] } [] =
      .error (.validationException "Unsupported complex scatter type 'bogus'") ∧
    (∃ out, scatterRun evCtx0
        { scatter := .list ["a", "b"],
          scatterMethod := some "flat_crossproduct", inputs := [] } [] =
      .ok out) ∧
    (∃ out, scatterRun evCtx0
        { scatter := .str "a", scatterMethod := some "bogus", inputs := [] }
        [] = .ok out) :=
  ⟨((scatter_validation_spec evCtx0
      { scatter := .list ["a", "b"], scatterMethod := none, inputs := [] }
      []).1 (by decide)).1 rfl,
   ((scatter_validation_spec evCtx0
      { scatter := .list ["a", "b"], scatterMethod := some "bogus",
        inputs := [] } []).1 (by decide)).2.1 "bogus" rfl (by decide) (by decide),
   ((scatter_validation_spec evCtx0
      { scatter := .list ["a", "b"],
        scatterMethod := some "flat_crossproduct", inputs := [] } []).1
      (by decide)).2.2.2 "flat_crossproduct" rfl (by decide),
   (scatter_validation_spec evCtx0
      { scatter := .str "a", scatterMethod := some "bogus", inputs := [] }
      []).2 (by decide)⟩

end CwlToil
